import Mathlib

/-!
Verification of the webex-rust client session layer.

Shallow embedding of the core components described in the specification:
the typed global-identifier codec (`GlobalId`), the REST transport's
response classification, the device manager (`get_devices`,
`get_mercury_url`, ranking), and the event-stream session
(`WebexEventStream::next`, `handle_message`, `auth`).

Modelling conventions:
* Rust `String`s are `List Char` where character-level structure matters
  (the identifier codec), plain `String` elsewhere.
* `chrono::DateTime<Utc>` timestamps are `Nat` (the order is all that the
  code uses).
* Base64 (the `base64` crate's `STANDARD` engine: canonical `=` padding,
  trailing bits rejected) is implemented over byte lists.
* `str::from_utf8` is modelled on the ASCII fragment; every alphabet the
  identifier codec manipulates (base64 text, hex UUIDs, kind tags,
  cluster names) is ASCII.
-/

set_option maxHeartbeats 1000000

namespace WebexRust

/-! ## Base64 (the `base64` crate, `general_purpose::STANDARD` engine) -/

/-- The standard base64 alphabet. -/
def b64alphabet : List Char :=
  "ABCDEFGHIJKLMNOPQRSTUVWXYZabcdefghijklmnopqrstuvwxyz0123456789+/".toList

/-- Character for a 6-bit value. -/
def b64chr (n : Nat) : Char := b64alphabet.getD n 'A'

/-- Six-bit value for a character (`none` when not in the alphabet). -/
def b64val (c : Char) : Option Nat := b64alphabet.findIdx? (fun d => d = c)

/-- Base64-encode a byte list with canonical `=` padding. -/
def b64encode : List Nat → List Char
  | [] => []
  | [a] => [b64chr (a / 4), b64chr (a % 4 * 16), '=', '=']
  | [a, b] => [b64chr (a / 4), b64chr (a % 4 * 16 + b / 16), b64chr (b % 16 * 4), '=']
  | a :: b :: c :: rest =>
    b64chr (a / 4) :: b64chr (a % 4 * 16 + b / 16) :: b64chr (b % 16 * 4 + c / 64)
      :: b64chr (c % 64) :: b64encode rest

/-- Base64-decode; rejects non-multiple-of-4 lengths, characters outside
the alphabet, interior padding and non-zero trailing bits, as the
`STANDARD` engine does. -/
def b64decode : List Char → Option (List Nat)
  | [] => some []
  | c1 :: c2 :: c3 :: c4 :: rest =>
    if c4 = '=' then
      if rest = [] then
        if c3 = '=' then
          match b64val c1, b64val c2 with
          | some v1, some v2 => if v2 % 16 = 0 then some [v1 * 4 + v2 / 16] else none
          | _, _ => none
        else
          match b64val c1, b64val c2, b64val c3 with
          | some v1, some v2, some v3 =>
            if v3 % 4 = 0 then some [v1 * 4 + v2 / 16, v2 % 16 * 16 + v3 / 4] else none
          | _, _, _ => none
      else none
    else
      match b64val c1, b64val c2, b64val c3, b64val c4, b64decode rest with
      | some v1, some v2, some v3, some v4, some bs =>
        some ((v1 * 4 + v2 / 16) :: (v2 % 16 * 16 + v3 / 4) :: (v3 % 4 * 64 + v4) :: bs)
      | _, _, _, _, _ => none
  | _ => none

theorem b64val_b64chr : ∀ v : Nat, v < 64 → b64val (b64chr v) = some v := by decide

theorem b64chr_ne_pad : ∀ v : Nat, v < 64 → b64chr v ≠ '=' := by decide

theorem b64_roundtrip : ∀ l : List Nat, (∀ x ∈ l, x < 256) → b64decode (b64encode l) = some l
  | [], _ => by simp [b64encode, b64decode]
  | [a], h => by
    have ha : a < 256 := h a (by simp)
    have h1 : a / 4 < 64 := by omega
    have h2 : a % 4 * 16 < 64 := by omega
    have e1 := b64val_b64chr _ h1
    have e2 := b64val_b64chr _ h2
    simp only [b64encode, b64decode, e1, e2, reduceIte]
    rw [if_pos (show a % 4 * 16 % 16 = 0 by omega)]
    simp only [Option.some.injEq, List.cons.injEq, and_true]
    omega
  | [a, b], h => by
    have ha : a < 256 := h a (by simp)
    have hb : b < 256 := h b (by simp)
    have h1 : a / 4 < 64 := by omega
    have h2 : a % 4 * 16 + b / 16 < 64 := by omega
    have h3 : b % 16 * 4 < 64 := by omega
    have e1 := b64val_b64chr _ h1
    have e2 := b64val_b64chr _ h2
    have e3 := b64val_b64chr _ h3
    simp only [b64encode, b64decode, reduceIte]
    rw [if_neg (b64chr_ne_pad _ h3)]
    simp only [e1, e2, e3]
    rw [if_pos (show b % 16 * 4 % 4 = 0 by omega)]
    simp only [Option.some.injEq, List.cons.injEq, and_true]
    constructor
    · omega
    · omega
  | a :: b :: c :: rest, h => by
    have ha : a < 256 := h a (by simp)
    have hb : b < 256 := h b (by simp)
    have hc : c < 256 := h c (by simp)
    have ih := b64_roundtrip rest (fun x hx => h x (by simp [hx]))
    have h1 : a / 4 < 64 := by omega
    have h2 : a % 4 * 16 + b / 16 < 64 := by omega
    have h3 : b % 16 * 4 + c / 64 < 64 := by omega
    have h4 : c % 64 < 64 := by omega
    have e1 := b64val_b64chr _ h1
    have e2 := b64val_b64chr _ h2
    have e3 := b64val_b64chr _ h3
    have e4 := b64val_b64chr _ h4
    rw [show b64encode (a :: b :: c :: rest) = b64chr (a / 4) :: b64chr (a % 4 * 16 + b / 16)
      :: b64chr (b % 16 * 4 + c / 64) :: b64chr (c % 64) :: b64encode rest from rfl]
    rw [b64decode]
    rw [if_neg (b64chr_ne_pad _ h4)]
    simp only [e1, e2, e3, e4, ih]
    simp only [Option.some.injEq, List.cons.injEq, and_true]
    refine ⟨by omega, by omega, by omega⟩

/-! ## Bytes and text

`String::into_bytes` / `str::from_utf8`, modelled on the ASCII fragment
(every alphabet handled by the identifier codec is ASCII). -/

/-- UTF-8 bytes of a string; faithful for ASCII text. -/
def strToBytes (s : List Char) : List Nat := s.map Char.toNat

/-- Models `str::from_utf8`, restricted to the ASCII fragment. -/
def utf8Decode (l : List Nat) : Option (List Char) :=
  if l.all (fun b => decide (b < 128)) then some (l.map Char.ofNat) else none

theorem ascii_roundtrip (s : List Char) (h : ∀ c ∈ s, c.toNat < 128) :
    utf8Decode (strToBytes s) = some s := by
  unfold utf8Decode strToBytes
  rw [if_pos]
  · congr 1
    rw [List.map_map]
    conv_rhs => rw [show s = s.map id from (List.map_id s).symm]
    apply List.map_congr_left
    intro c _
    exact Char.ofNat_toNat c
  · rw [List.all_eq_true]
    intro b hb
    simp only [List.mem_map] at hb
    obtain ⟨c, hc, rfl⟩ := hb
    exact decide_eq_true (h c hc)

theorem strToBytes_lt_256 (s : List Char) (h : ∀ c ∈ s, c.toNat < 128) :
    ∀ x ∈ strToBytes s, x < 256 := by
  intro x hx
  simp only [strToBytes, List.mem_map] at hx
  obtain ⟨c, hc, rfl⟩ := hx
  exact Nat.lt_of_lt_of_le (h c hc) (by omega)

/-! ## `str::split` on a single character -/

/-- Rust `str::split(sep)`: splits on every occurrence, keeping empty
segments (`"a//b"` gives `["a", "", "b"]`, `""` gives `[""]`). -/
def splitOnC (sep : Char) : List Char → List (List Char)
  | [] => [[]]
  | c :: rest =>
    if c = sep then [] :: splitOnC sep rest
    else
      match splitOnC sep rest with
      | [] => [[c]]
      | h :: t => (c :: h) :: t

theorem splitOnC_ne_nil (sep : Char) (l : List Char) : splitOnC sep l ≠ [] := by
  induction l with
  | nil => simp [splitOnC]
  | cons c rest ih =>
    simp only [splitOnC]
    by_cases hc : c = sep
    · simp [hc]
    · rw [if_neg hc]
      cases hsp : splitOnC sep rest with
      | nil => simp
      | cons h t => simp

theorem splitOnC_no_sep (sep : Char) (l : List Char) (h : sep ∉ l) :
    splitOnC sep l = [l] := by
  induction l with
  | nil => simp [splitOnC]
  | cons c rest ih =>
    have hc : c ≠ sep := fun he => h (he ▸ List.mem_cons_self c rest)
    have hrest : sep ∉ rest := fun hm => h (List.mem_cons_of_mem c hm)
    simp only [splitOnC, if_neg hc, ih hrest]

theorem splitOnC_append (sep : Char) (A rest : List Char) (h : sep ∉ A) :
    splitOnC sep (A ++ sep :: rest) = A :: splitOnC sep rest := by
  induction A with
  | nil => simp [splitOnC]
  | cons c A' ih =>
    have hc : c ≠ sep := fun he => h (he ▸ List.mem_cons_self c A')
    have hA' : sep ∉ A' := fun hm => h (List.mem_cons_of_mem c hm)
    simp only [List.cons_append, splitOnC, if_neg hc, List.append_eq]
    rw [ih hA']

theorem mem_splitOnC (sep : Char) (l : List Char) (c : Char) (hc : c ∈ l) :
    (∃ p ∈ splitOnC sep l, c ∈ p) ∨ c = sep := by
  induction l with
  | nil => cases hc
  | cons x rest ih =>
    by_cases hx : x = sep
    · rcases List.mem_cons.mp hc with rfl | hr
      · right; exact hx
      · rcases ih hr with ⟨p, hp, hcp⟩ | hs
        · left
          refine ⟨p, ?_, hcp⟩
          simp only [splitOnC, if_pos hx]
          exact List.mem_cons_of_mem _ hp
        · right; exact hs
    · cases hsp : splitOnC sep rest with
      | nil => exact absurd hsp (splitOnC_ne_nil sep rest)
      | cons hd tl =>
        rcases List.mem_cons.mp hc with rfl | hr
        · left
          refine ⟨c :: hd, ?_, List.mem_cons_self c hd⟩
          simp [splitOnC, if_neg hx, hsp]
        · rcases ih hr with ⟨p, hp, hcp⟩ | hs
          · rw [hsp] at hp
            rcases List.mem_cons.mp hp with rfl | hp'
            · left
              refine ⟨x :: p, ?_, List.mem_cons_of_mem x hcp⟩
              simp [splitOnC, if_neg hx, hsp]
            · left
              refine ⟨p, ?_, hcp⟩
              simp only [splitOnC, if_neg hx, hsp]
              exact List.mem_cons_of_mem _ hp'
          · right; exact hs

/-! ## UUIDs

Models `uuid::Uuid::parse_str` on its canonical shapes: the simple form
(32 hex digits) and the hyphenated form (8-4-4-4-12 hex digits).  Braced
and URN forms are omitted; every form the crate accepts is ASCII and
contains no `/`, which is all the codec proofs rely on. -/

/-- Hexadecimal digit (either case), by code point. -/
def isHexDigit (c : Char) : Bool :=
  decide ((48 ≤ c.toNat ∧ c.toNat ≤ 57) ∨ (97 ≤ c.toNat ∧ c.toNat ≤ 102)
    ∨ (65 ≤ c.toNat ∧ c.toNat ≤ 70))

/-- Models `Uuid::parse_str(s).is_ok()` (simple and hyphenated forms). -/
def isUuid (s : List Char) : Bool :=
  (s.length == 32 && s.all isHexDigit) ||
  (match splitOnC '-' s with
   | [a, b, c, d, e] =>
     a.length == 8 && b.length == 4 && c.length == 4 && d.length == 4 && e.length == 12 &&
     a.all isHexDigit && b.all isHexDigit && c.all isHexDigit && d.all isHexDigit &&
     e.all isHexDigit
   | _ => false)

theorem isUuid_chars (s : List Char) (h : isUuid s = true) :
    ∀ c ∈ s, isHexDigit c = true ∨ c = '-' := by
  intro c hc
  unfold isUuid at h
  rw [Bool.or_eq_true] at h
  rcases h with h | h
  · rw [Bool.and_eq_true] at h
    left
    exact List.all_eq_true.mp h.2 c hc
  · split at h
    case h_1 a b d e f heq =>
      simp only [Bool.and_eq_true, beq_iff_eq] at h
      rcases mem_splitOnC '-' s c hc with ⟨p, hp, hcp⟩ | hs
      · rw [heq] at hp
        left
        simp only [List.mem_cons, List.not_mem_nil, or_false] at hp
        rcases hp with rfl | rfl | rfl | rfl | rfl
        · exact List.all_eq_true.mp h.1.1.1.1.2 c hcp
        · exact List.all_eq_true.mp h.1.1.1.2 c hcp
        · exact List.all_eq_true.mp h.1.1.2 c hcp
        · exact List.all_eq_true.mp h.1.2 c hcp
        · exact List.all_eq_true.mp h.2 c hcp
      · right; exact hs
    case h_2 => exact absurd h (by simp)

theorem isUuid_no_slash (s : List Char) (h : isUuid s = true) : '/' ∉ s := by
  intro hc
  rcases isUuid_chars s h '/' hc with hx | hx
  · exact absurd hx (by decide)
  · exact absurd hx (by decide)

theorem isUuid_ascii (s : List Char) (h : isUuid s = true) : ∀ c ∈ s, c.toNat < 128 := by
  intro c hc
  rcases isUuid_chars s h c hc with hx | hx
  · unfold isHexDigit at hx
    have := of_decide_eq_true hx
    omega
  · subst hx; decide

/-! ## The typed global identifier (`src/types.rs`)

`GlobalIdType`, `GlobalId`, `GlobalId::new_with_cluster`,
`GlobalId::new_with_cluster_unchecked` and `GlobalId::check_id`. -/

/-- Models `GlobalIdType` from `src/types.rs`. -/
inductive GlobalIdType
  | message
  | person
  | room
  | attachmentAction
  | unknown
deriving DecidableEq

/-- The `Display` impl for `GlobalIdType` (`src/types.rs:711`). -/
def GlobalIdType.display : GlobalIdType → List Char
  | .message => "MESSAGE".toList
  | .person => "PEOPLE".toList
  | .room => "ROOM".toList
  | .attachmentAction => "ATTACHMENT_ACTION".toList
  | .unknown => "<UNKNOWN>".toList

/-- The inverse reading of the `Display` strings (used to state the
spec's round-trip property `decode(encode(k, u)).kind == k`). -/
def kindFromString (s : List Char) : Option GlobalIdType :=
  if s = "MESSAGE".toList then some .message
  else if s = "PEOPLE".toList then some .person
  else if s = "ROOM".toList then some .room
  else if s = "ATTACHMENT_ACTION".toList then some .attachmentAction
  else if s = "<UNKNOWN>".toList then some .unknown
  else none

/-- The distinct error conditions raised by the identifier codec (the
source raises stringly-typed errors; one constructor per message). -/
inductive IdError
  /-- Message "Cannot get globalId for unknown ID type" -/
  | unknownType
  /-- Message "Failed to turn base64 id into UTF8 string" -/
  | badUtf8
  /-- Message "Expected base64 ID to be in the form ciscospark://..." -/
  | malformed
  /-- Message "Expected base64 cluster to equal expected cluster ..." -/
  | clusterMismatch
  /-- Message "Expected base64 type to equal ..." -/
  | kindMismatch
  /-- Message "Expected ID to be base64 geo-id or uuid" -/
  | notUuidOrB64
deriving DecidableEq

/-- Models `GlobalId` (`src/types.rs:732`): the encoded id and its kind tag. -/
structure GlobalId where
  id : List Char
  type_ : GlobalIdType
deriving DecidableEq

/-- The URI text `ciscospark://{cluster}/{TYPE}/{id}` built by
`new_with_cluster_unchecked`. -/
def uriOf (cluster type_ id : List Char) : List Char :=
  "ciscospark://".toList ++ cluster ++ '/' :: type_ ++ '/' :: id

/-- Models `GlobalId::check_id` (`src/types.rs:799-822`), translated clause by
clause.  Note the `else if` chain of the source: when an expected
cluster is supplied, the kind check of the final branch is never
reached. -/
def check_id (id : List Char) (cluster : Option (List Char)) (type_ : List Char) :
    Except IdError Unit :=
  let decoded_parts := splitOnC '/' id
  if decoded_parts.length ≠ 5 ∨ decoded_parts.getD 0 [] ≠ "ciscospark:".toList
      ∨ decoded_parts.getD 1 [] ≠ ([] : List Char) then
    .error .malformed
  else
    match cluster with
    | some expected_cluster =>
      if decoded_parts.getD 2 [] ≠ expected_cluster then .error .clusterMismatch
      else .ok ()
    | none =>
      if decoded_parts.getD 3 [] ≠ type_ then .error .kindMismatch
      else .ok ()

/-- Models `GlobalId::new_with_cluster_unchecked` (`src/types.rs:782-798`): a
UUID id is re-encoded as base64 of the URI form (cluster defaulting to
`"us"`); any other id is kept verbatim. -/
def new_with_cluster_unchecked (type_ : GlobalIdType) (id : List Char)
    (cluster : Option (List Char)) : GlobalId :=
  let id :=
    if isUuid id then
      b64encode (strToBytes (uriOf (cluster.getD "us".toList) type_.display id))
    else id
  ⟨id, type_⟩

/-- Models `GlobalId::new_with_cluster` (`src/types.rs:761-777`): rejects the
`Unknown` kind, validates base64 ids via `check_id`, requires
non-base64 ids to be UUIDs. -/
def new_with_cluster (type_ : GlobalIdType) (id : List Char)
    (cluster : Option (List Char)) : Except IdError GlobalId :=
  if type_ = .unknown then .error .unknownType
  else
    match b64decode id with
    | some decoded =>
      match utf8Decode decoded with
      | some decoded_str =>
        match check_id decoded_str cluster type_.display with
        | .ok _ => .ok (new_with_cluster_unchecked type_ id cluster)
        | .error e => .error e
      | none => .error .badUtf8
    | none =>
      if isUuid id then .ok (new_with_cluster_unchecked type_ id cluster)
      else .error .notUuidOrB64

/-- The decode direction of an encoded id, reading the same structure
`check_id` validates: base64-decode, UTF-8-decode, split on `/` into
exactly `scheme:`, empty, cluster, KIND, uuid.  Returns the embedded
(cluster, kind string, uuid). -/
def decodeGlobalId (enc : List Char) : Option (List Char × List Char × List Char) :=
  match b64decode enc with
  | none => none
  | some bytes =>
    match utf8Decode bytes with
    | none => none
    | some s =>
      match splitOnC '/' s with
      | [sch, e, cl, k, u] =>
        if sch = "ciscospark:".toList ∧ e = ([] : List Char) then some (cl, k, u)
        else none
      | _ => none

/-- A concrete all-zero UUID. -/
def uuidZero : List Char := "00000000-0000-0000-0000-000000000000".toList

/-- The base64 URI-form encoding of `uuidZero` with embedded kind `ROOM`
and cluster `us`. -/
def encodedRoomId : List Char :=
  b64encode (strToBytes (uriOf "us".toList GlobalIdType.room.display uuidZero))

/-- C2: evaluation at the failing input.  `encodedRoomId` embeds kind
`ROOM`, yet validating it against expected kind `Message` *with* an
expected (matching) cluster `us` succeeds: the `else if` chain of
`check_id` never reaches the kind check once a cluster is supplied, so
no `KindMismatch` is raised — contradicting both the claim and the
documented errors of `new_with_cluster`. -/
theorem c2_kind_check_skipped_eval :
    decodeGlobalId encodedRoomId
        = some ("us".toList, GlobalIdType.room.display, uuidZero)
    ∧ GlobalIdType.room ≠ GlobalIdType.message
    ∧ new_with_cluster .message encodedRoomId (some "us".toList)
        = .ok ⟨encodedRoomId, .message⟩ :=
  ⟨by decide, by decide, rfl⟩

theorem mem_uriOf {c : Char} {cl disp u : List Char} (h : c ∈ uriOf cl disp u) :
    c ∈ "ciscospark://".toList ∨ c ∈ cl ∨ c = '/' ∨ c ∈ disp ∨ c ∈ u := by
  simp only [uriOf, List.mem_append, List.mem_cons] at h
  tauto

theorem uri_ascii (cl disp u : List Char)
    (hcl : ∀ c ∈ cl, c.toNat < 128) (hdisp : ∀ c ∈ disp, c.toNat < 128)
    (hu : ∀ c ∈ u, c.toNat < 128) :
    ∀ c ∈ uriOf cl disp u, c.toNat < 128 := by
  intro c hc
  have hS : ∀ x ∈ "ciscospark://".toList, x.toNat < 128 := by decide
  rcases mem_uriOf hc with h | h | rfl | h | h
  · exact hS c h
  · exact hcl c h
  · decide
  · exact hdisp c h
  · exact hu c h

theorem uri_split (cl disp u : List Char)
    (hcl : '/' ∉ cl) (hdisp : '/' ∉ disp) (hu : '/' ∉ u) :
    splitOnC '/' (uriOf cl disp u) = ["ciscospark:".toList, [], cl, disp, u] := by
  have hsch : ('/' : Char) ∉ "ciscospark:".toList := by decide
  have e1 : uriOf cl disp u
      = "ciscospark:".toList ++ '/' :: (([] : List Char) ++ '/' :: (cl ++ '/' :: (disp ++ '/' :: u))) := by
    simp [uriOf]
  rw [e1, splitOnC_append _ _ _ hsch, splitOnC_append _ _ _ (by simp),
    splitOnC_append _ _ _ hcl, splitOnC_append _ _ _ hdisp, splitOnC_no_sep _ _ hu]

theorem display_no_slash (k : GlobalIdType) : '/' ∉ k.display := by
  cases k <;> decide

theorem display_ascii (k : GlobalIdType) : ∀ c ∈ k.display, c.toNat < 128 := by
  cases k <;> decide

theorem kindFromString_display (k : GlobalIdType) : kindFromString k.display = some k := by
  cases k <;> decide

/-- C4: encode/decode round-trip of the identifier codec.  For every
UUID string `u`, every kind `k` and every slash-free ASCII cluster
(defaulting to `us`), `new_with_cluster_unchecked` produces the base64
of `ciscospark://{cluster}/{KIND}/{u}`, and decoding the result yields
back the cluster, the kind (via its display string, which determines
the kind) and the raw uuid. -/
theorem c4_globalid_roundtrip (k : GlobalIdType) (u : List Char)
    (cluster : Option (List Char)) (hu : isUuid u = true)
    (hcl : '/' ∉ cluster.getD "us".toList
      ∧ ∀ c ∈ cluster.getD "us".toList, c.toNat < 128) :
    (new_with_cluster_unchecked k u cluster).id
        = b64encode (strToBytes (uriOf (cluster.getD "us".toList) k.display u))
    ∧ (new_with_cluster_unchecked k u cluster).type_ = k
    ∧ decodeGlobalId (new_with_cluster_unchecked k u cluster).id
        = some (cluster.getD "us".toList, k.display, u)
    ∧ kindFromString k.display = some k := by
  have hid : (new_with_cluster_unchecked k u cluster).id
      = b64encode (strToBytes (uriOf (cluster.getD "us".toList) k.display u)) := by
    simp [new_with_cluster_unchecked, hu]
  refine ⟨hid, rfl, ?_, kindFromString_display k⟩
  rw [hid]
  have hascii : ∀ c ∈ uriOf (cluster.getD "us".toList) k.display u, c.toNat < 128 :=
    uri_ascii _ _ _ hcl.2 (display_ascii k) (isUuid_ascii u hu)
  simp only [decodeGlobalId, b64_roundtrip _ (strToBytes_lt_256 _ hascii),
    ascii_roundtrip _ hascii,
    uri_split _ _ _ hcl.1 (display_no_slash k) (isUuid_no_slash u hu)]
  simp

/-- C4 witness: the round-trip at the concrete kind `Message`, the
all-zero UUID and the default cluster. -/
theorem c4_globalid_roundtrip_witness :
    decodeGlobalId (new_with_cluster_unchecked .message uuidZero none).id
        = some ("us".toList, GlobalIdType.message.display, uuidZero) :=
  (c4_globalid_roundtrip .message uuidZero none (by decide) ⟨by decide, by decide⟩).2.2.1

/-! ## Devices and ranking (`Webex::event_stream`, `src/lib.rs:484-510`)

`DeviceData` keeps the fields the covered operations read; the many
remaining serde fields of the source struct carry no behaviour.
Timestamps (`chrono::DateTime<Utc>`) are modelled as `Nat`. -/

/-- Models `DeviceData` (`src/types.rs:302`), restricted to the fields the
session manager reads. -/
structure DeviceData where
  url : Option String := none
  ws_url : Option String := none
  device_name : Option String := none
  name : Option String := none
  modification_time : Option Nat := none
deriving DecidableEq

/-- The comparator passed to `devices.sort_by` (`src/lib.rs:495-499`):
`b.modification_time.unwrap_or_else(now).cmp(&a.modification_time.unwrap_or_else(now))`.
`chrono::Utc::now()` is sampled afresh at each comparison; the sampled
value is the `now` parameter. -/
def deviceCmp (now : Nat) (a b : DeviceData) : Ordering :=
  compare (b.modification_time.getD now) (a.modification_time.getD now)

/-- Stable insertion of `x` into `l` by a three-way comparator: `x`
passes over exactly the elements it compares `gt` against. -/
def insertByCmp {α : Type} (cmp : α → α → Ordering) (x : α) : List α → List α
  | [] => [x]
  | y :: ys => if cmp x y = .gt then y :: insertByCmp cmp x ys else x :: y :: ys

/-- Models `Vec::sort_by` (a stable comparator sort), as stable insertion
sort — extensionally equal to the source's stable merge sort. -/
def sortByCmp {α : Type} (cmp : α → α → Ordering) : List α → List α
  | [] => []
  | x :: xs => insertByCmp cmp x (sortByCmp cmp xs)

theorem mem_insertByCmp {α : Type} (cmp : α → α → Ordering) (x y : α) (l : List α) :
    y ∈ insertByCmp cmp x l ↔ y = x ∨ y ∈ l := by
  induction l with
  | nil => simp [insertByCmp]
  | cons z zs ih =>
    simp only [insertByCmp]
    by_cases h : cmp x z = .gt
    · rw [if_pos h]
      simp only [List.mem_cons, ih]
      tauto
    · rw [if_neg h]
      simp

theorem mem_sortByCmp {α : Type} (cmp : α → α → Ordering) (y : α) (l : List α) :
    y ∈ sortByCmp cmp l ↔ y ∈ l := by
  induction l with
  | nil => simp [sortByCmp]
  | cons x xs ih =>
    simp only [sortByCmp, mem_insertByCmp, ih, List.mem_cons]

/-- The candidate list built by `Webex::event_stream`
(`src/lib.rs:484-499`): fetched devices filtered to those whose `name`
equals the local client's chosen device name, then sorted descending by
modification time. -/
def rankDevices (now : Nat) (chosenName : Option String) (ds : List DeviceData) :
    List DeviceData :=
  sortByCmp (deviceCmp now) (ds.filter fun d => decide (d.name = chosenName))

/-- The connection-attempt errors of `connect_device`
(`src/lib.rs:452-480`). -/
inductive ConnectError
  /-- Message "Device has no ws_url" -/
  | noWsUrl
  /-- Message "Failed to parse ws_url" -/
  | badUrl
  /-- Variant `Error::Tungstenite(e, "Failed to connect to ws_url")` -/
  | connectFailed
  /-- failure of the `WebexEventStream::auth` handshake -/
  | authFailed
deriving DecidableEq

/-- Models `connect_device` (`src/lib.rs:452-480`).  `connect` abstracts the
URL parse, websocket connect and auth handshake performed on the
gateway URL; the first step of the source returns immediately when the
device has no `ws_url`, before any of that runs. -/
def connect_device {σ : Type} (connect : String → Except ConnectError σ)
    (d : DeviceData) : Except ConnectError σ :=
  match d.ws_url with
  | none => .error .noWsUrl
  | some u => connect u

/-- C5: the candidate list is exactly the name-filtered fetched devices
sorted descending by modification time — for timestamps `t1 < t2 < t3`
the ranked order is `[t3, t2, t1]`, membership in the ranked list is
membership in the name filter — and a candidate without a gateway URL
never produces a connection attempt (the attempt function `connect` is
never consulted), regardless of rank. -/
theorem c5_ranking (now t1 t2 t3 : Nat) (d1 d2 d3 : DeviceData)
    (nm : Option String) (ds : List DeviceData)
    (hm1 : d1.modification_time = some t1) (hm2 : d2.modification_time = some t2)
    (hm3 : d3.modification_time = some t3)
    (h12 : t1 < t2) (h23 : t2 < t3)
    (hn1 : d1.name = nm) (hn2 : d2.name = nm) (hn3 : d3.name = nm) :
    rankDevices now nm [d1, d2, d3] = [d3, d2, d1]
    ∧ (∀ d, d ∈ rankDevices now nm ds ↔ d ∈ ds ∧ d.name = nm)
    ∧ (∀ (σ : Type) (connect₁ connect₂ : String → Except ConnectError σ)
        (d : DeviceData), d.ws_url = none →
          connect_device connect₁ d = .error .noWsUrl
          ∧ connect_device connect₁ d = connect_device connect₂ d) := by
  refine ⟨?_, ?_, ?_⟩
  · have c12 : deviceCmp now d1 d2 = .gt := by
      simp [deviceCmp, hm1, hm2, Nat.compare_eq_gt]
      try omega
    have c13 : deviceCmp now d1 d3 = .gt := by
      simp [deviceCmp, hm1, hm3, Nat.compare_eq_gt]
      try omega
    have c23 : deviceCmp now d2 d3 = .gt := by
      simp [deviceCmp, hm2, hm3, Nat.compare_eq_gt]
      try omega
    simp [rankDevices, hn1, hn2, hn3, sortByCmp, insertByCmp, c12, c13, c23]
  · intro d
    rw [rankDevices, mem_sortByCmp, List.mem_filter]
    simp
  · intro σ connect₁ connect₂ d hd
    unfold connect_device
    rw [hd]
    exact ⟨rfl, rfl⟩

/-- C5 witness: three concrete devices with timestamps 1 < 2 < 3 rank
as `[3, 2, 1]`, and a concrete device without a gateway URL yields
`noWsUrl` for any attempt function. -/
theorem c5_ranking_witness :
    rankDevices 10 (some "rust-client")
        [⟨none, none, none, some "rust-client", some 1⟩,
         ⟨none, none, none, some "rust-client", some 2⟩,
         ⟨none, none, none, some "rust-client", some 3⟩]
      = [⟨none, none, none, some "rust-client", some 3⟩,
         ⟨none, none, none, some "rust-client", some 2⟩,
         ⟨none, none, none, some "rust-client", some 1⟩]
    ∧ connect_device (fun _ => .ok ()) ⟨none, none, none, some "rust-client", some 1⟩
        = .error .noWsUrl :=
  ⟨(c5_ranking 10 1 2 3 _ _ _ (some "rust-client") [] rfl rfl rfl (by decide) (by decide)
      rfl rfl rfl).1,
   ((c5_ranking 10 1 2 3
      ⟨none, none, none, some "rust-client", some 1⟩
      ⟨none, none, none, some "rust-client", some 2⟩
      ⟨none, none, none, some "rust-client", some 3⟩ (some "rust-client") [] rfl rfl rfl
      (by decide) (by decide) rfl rfl rfl).2.2 Unit (fun _ => .ok ()) (fun _ => .ok ())
      ⟨none, none, none, some "rust-client", some 1⟩ rfl).1⟩

/-- Every device of `l` carries a recorded timestamp lying strictly in
the past of the sampled clock value `now`. -/
def allPastNow (now : Nat) (l : List DeviceData) : Prop :=
  ∀ b ∈ l, ∃ t, b.modification_time = some t ∧ t < now

theorem insert_absent_head (now : Nat) (a : DeviceData) (l : List DeviceData)
    (ha : a.modification_time = none) (hl : allPastNow now l) :
    insertByCmp (deviceCmp now) a l = a :: l := by
  cases l with
  | nil => rfl
  | cons y ys =>
    obtain ⟨t, hyt, hlt⟩ := hl y (List.mem_cons_self y ys)
    have : deviceCmp now a y ≠ .gt := by
      simp [deviceCmp, ha, hyt, Nat.compare_eq_gt]
      omega
    simp [insertByCmp, this]

theorem insert_past_keeps_head (now : Nat) (x a : DeviceData) (r : List DeviceData)
    (hx : ∃ t, x.modification_time = some t ∧ t < now)
    (ha : a.modification_time = none) :
    insertByCmp (deviceCmp now) x (a :: r) = a :: insertByCmp (deviceCmp now) x r := by
  obtain ⟨t, hxt, hlt⟩ := hx
  have : deviceCmp now x a = .gt := by
    simp [deviceCmp, ha, hxt, Nat.compare_eq_gt]
    omega
  simp [insertByCmp, this]

theorem sort_absent_head (now : Nat) (a : DeviceData) (l1 l2 : List DeviceData)
    (ha : a.modification_time = none) (hp : allPastNow now (l1 ++ l2)) :
    (sortByCmp (deviceCmp now) (l1 ++ a :: l2)).head? = some a := by
  induction l1 with
  | nil =>
    simp only [List.nil_append, sortByCmp]
    rw [insert_absent_head now a _ ha]
    · rfl
    · intro b hb
      exact hp b (by simpa using (mem_sortByCmp _ b l2).mp hb)
  | cons x l1' ih =>
    have hx : ∃ t, x.modification_time = some t ∧ t < now :=
      hp x (by simp)
    have hp' : allPastNow now (l1' ++ l2) := by
      intro b hb
      apply hp
      simp only [List.mem_append, List.cons_append, List.mem_cons] at hb ⊢
      tauto
    have ih' := ih hp'
    obtain ⟨r, hr⟩ : ∃ r, sortByCmp (deviceCmp now) (l1' ++ a :: l2) = a :: r := by
      cases hs : sortByCmp (deviceCmp now) (l1' ++ a :: l2) with
      | nil => rw [hs] at ih'; cases ih'
      | cons z zs =>
        rw [hs] at ih'
        simp only [List.head?] at ih'
        exact ⟨zs, by rw [Option.some.injEq] at ih'; rw [ih']⟩
    simp only [List.cons_append, sortByCmp, List.append_eq]
    rw [hr, insert_past_keeps_head now x a r hx ha]
    rfl

/-- C10: in the ranking comparator an absent timestamp is substituted
by the clock value sampled at the comparison (`unwrap_or_else(Utc::now)`),
so it compares ahead of every device whose recorded timestamp lies in
the past of that sample; consequently, sorting any device list in which
one device lacks a timestamp and every other device's timestamp is in
the past places the timestamp-less device first. -/
theorem c10_absent_timestamp_first (now : Nat) (a : DeviceData)
    (l1 l2 : List DeviceData)
    (ha : a.modification_time = none) (hp : allPastNow now (l1 ++ l2)) :
    (∀ b t, b.modification_time = some t → t < now →
        deviceCmp now a b = .lt ∧ deviceCmp now b a = .gt)
    ∧ (sortByCmp (deviceCmp now) (l1 ++ a :: l2)).head? = some a := by
  constructor
  · intro b t hb hlt
    constructor
    · simp [deviceCmp, ha, hb, Nat.compare_eq_lt]
      omega
    · simp [deviceCmp, ha, hb, Nat.compare_eq_gt]
      omega
  · exact sort_absent_head now a l1 l2 ha hp

/-- C10 witness: a timestamp-less device sorts ahead of two devices
with past timestamps, wherever it starts in the input. -/
theorem c10_absent_timestamp_first_witness :
    (sortByCmp (deviceCmp 10)
        [⟨none, none, none, none, some 5⟩,
         ⟨none, none, none, none, none⟩,
         ⟨none, none, none, none, some 7⟩]).head?
      = some ⟨none, none, none, none, none⟩ :=
  (c10_absent_timestamp_first 10 ⟨none, none, none, none, none⟩
    [⟨none, none, none, none, some 5⟩] [⟨none, none, none, none, some 7⟩]
    rfl (by
      intro b hb
      simp only [List.mem_append, List.mem_cons, List.not_mem_nil, or_false] at hb
      rcases hb with rfl | rfl
      · exact ⟨5, rfl, by omega⟩
      · exact ⟨7, rfl, by omega⟩)).2

/-! ## The transport error taxonomy

The enum variants `lib.rs` matches on and its doc comments describe
(`Error::Status`, `Error::StatusText`, `Error::Limited`, ...); status
codes are `Nat`, the `Retry-After` hint is an `Option Int` (`i64`). -/

/-- The library error kinds relevant to the covered operations. -/
inductive WError
  /-- Variant `Error::Status(code)` -/
  | status (code : Nat)
  /-- Variant `Error::StatusText(code, body)` -/
  | statusText (code : Nat) (body : String)
  /-- Variant `Error::Limited(code, retry_after)` — HTTP 423/429 -/
  | limited (code : Nat) (retryAfter : Option Int)
  /-- Variant `Error::Closed(..)` -/
  | closedChannel
  /-- Variant `Error::Tungstenite(..)` — websocket transport failure -/
  | wsTransport
  /-- Variant `Error::UTF8(..)` -/
  | utf8Failure
  /-- Variant `Error::Json(..)` — serde decode failure -/
  | jsonFailure
  /-- a stringly-typed `Error::Msg` -/
  | textMessage (msg : String)
  /-- the re-wrap `format!("Cant decode devices reply: {e}")` performed
  by `get_devices` on errors it does not recognise -/
  | wrappedDevicesDecode (inner : WError)
deriving DecidableEq

/-! ## `Webex::get_devices` (`src/lib.rs:757-786`) -/

/-- Models `DevicesReply` (`src/types.rs:288`), restricted to the fields
`get_devices` reads. -/
structure DevicesReply where
  devices : Option (List DeviceData)
  message : Option String := none
  tracking_id : Option String := none
deriving DecidableEq

/-- Models `Webex::get_devices`: `reply` is the outcome of the `GET devices`
call, `setup` the outcome of the `POST devices` call performed by
`setup_devices` (only consulted on the fallback paths).  Returns the
result and the number of device-creation calls performed. -/
def get_devices (reply : Except WError DevicesReply)
    (setup : Except WError DeviceData) : Except WError (List DeviceData) × Nat :=
  match reply with
  | .ok r =>
    match r.devices with
    | some ds => (.ok ds, 0)
    | none => (setup.map fun d => [d], 1)
  | .error e =>
    match e with
    | .status s => if s = 404 then (setup.map fun d => [d], 1) else (.error e, 0)
    | .statusText s _ => if s = 404 then (setup.map fun d => [d], 1) else (.error e, 0)
    | .limited _ _ => (.error e, 0)
    | _ => (.error (.wrappedDevicesDecode e), 0)

/-- A concrete freshly-created registration, used by witnesses. -/
def freshDevice : DeviceData :=
  ⟨some "https://wdm-a.wbx2.com/wdm/api/v1/devices/1", some "wss://example", none,
    some "rust-client", some 42⟩

/-- C6 counterexample: a reply whose device list is present but empty.
The claim says an empty list triggers exactly one device-creation call
and a one-element result; the code returns the empty list unchanged and
performs zero creation calls (only an *absent* `devices` field or a 404
status triggers creation). -/
theorem c6_empty_list_counterexample :
    get_devices (.ok ⟨some [], none, none⟩) (.ok freshDevice) = (.ok [], 0)
    ∧ ¬ ∃ d, get_devices (.ok ⟨some [], none, none⟩) (.ok freshDevice)
        = (.ok [d], 1) := by
  constructor
  · rfl
  · rintro ⟨d, hd⟩
    rw [show get_devices (.ok ⟨some [], none, none⟩) (.ok freshDevice)
      = (.ok [], 0) from rfl] at hd
    simp at hd

/-- C6 amended: `get_devices` returns any *present* device list as-is
(including an empty one, with zero creation calls); an absent `devices`
field or a 404 `Status`/`StatusText` error triggers exactly one
creation call whose single registration is returned; a rate-limit error
and non-404 status errors propagate unmodified with zero creation
calls; every other error is re-wrapped in a "cant decode devices reply"
message. -/
theorem c6_devices_amended (setup : Except WError DeviceData) :
    (∀ r ds, r.devices = some ds → get_devices (.ok r) setup = (.ok ds, 0))
    ∧ (∀ r, r.devices = none →
        get_devices (.ok r) setup = (setup.map fun d => [d], 1))
    ∧ (∀ b, get_devices (.error (.status 404)) setup = (setup.map fun d => [d], 1)
        ∧ get_devices (.error (.statusText 404 b)) setup = (setup.map fun d => [d], 1))
    ∧ (∀ s b, s ≠ 404 →
        get_devices (.error (.status s)) setup = (.error (.status s), 0)
        ∧ get_devices (.error (.statusText s b)) setup = (.error (.statusText s b), 0))
    ∧ (∀ s ra, get_devices (.error (.limited s ra)) setup = (.error (.limited s ra), 0))
    ∧ (∀ e, (∀ s, e ≠ .status s) → (∀ s b, e ≠ .statusText s b) →
        (∀ s ra, e ≠ .limited s ra) →
        get_devices (.error e) setup = (.error (.wrappedDevicesDecode e), 0)) := by
  refine ⟨?_, ?_, ?_, ?_, ?_, ?_⟩
  · intro r ds hds
    simp [get_devices, hds]
  · intro r hds
    simp [get_devices, hds]
  · intro b
    exact ⟨by simp [get_devices], by simp [get_devices]⟩
  · intro s b hs
    exact ⟨by simp [get_devices, hs], by simp [get_devices, hs]⟩
  · intro s ra
    rfl
  · intro e h1 h2 h3
    cases e with
    | status s => exact absurd rfl (h1 s)
    | statusText s b => exact absurd rfl (h2 s b)
    | limited s ra => exact absurd rfl (h3 s ra)
    | closedChannel => rfl
    | wsTransport => rfl
    | utf8Failure => rfl
    | jsonFailure => rfl
    | textMessage m => rfl
    | wrappedDevicesDecode i => rfl

/-- C6 witness: concrete instances of the amended behaviour — a non-404
status propagates unmodified with zero creation calls, and an absent
device list performs exactly one creation call. -/
theorem c6_devices_amended_witness :
    get_devices (.error (.status 500)) (.ok freshDevice) = (.error (.status 500), 0)
    ∧ get_devices (.ok ⟨none, none, none⟩) (.ok freshDevice) = (.ok [freshDevice], 1) :=
  ⟨((c6_devices_amended (.ok freshDevice)).2.2.2.1 500 "" (by decide)).1,
    (c6_devices_amended (.ok freshDevice)).2.1 ⟨none, none, none⟩ rfl⟩

/-! ## `Webex::get_mercury_url` (`src/lib.rs:512-535`) -/

/-- Failures of the uncached discovery chain
(`get_mercury_url_uncached`, `src/lib.rs:537-563`). -/
inductive MercuryErr
  /-- Message "Cant get mercury URL with no orgs" — the organizations list was
  empty -/
  | noOrgs
  /-- any REST error from the organizations or catalog calls -/
  | restFailure
deriving DecidableEq

/-- Models `Webex::get_mercury_url`.  The process-wide `MERCURY_CACHE` is an
association list keyed by the token hash `id`; a value `none` is the
`Err(())` marker the source stores for a failed discovery.  `uncached`
is the outcome `get_mercury_url_uncached` would produce.  Returns the
updated cache, the result (`Err(None)` models a cached failure), and
whether the uncached discovery ran. -/
def get_mercury_url (cache : List (Nat × Option String)) (id : Nat)
    (uncached : Except MercuryErr String) :
    List (Nat × Option String) × Except (Option MercuryErr) String × Bool :=
  match cache.lookup id with
  | some (some url) => (cache, .ok url, false)
  | some none => (cache, .error none, false)
  | none =>
    match uncached with
    | .ok url => ((id, some url) :: cache, .ok url, true)
    | .error e => ((id, none) :: cache, .error (some e), true)

/-- The hard-coded `DEFAULT_REGISTRATION_HOST_PREFIX`
(`src/lib.rs:80`). -/
def defaultRegistrationHost : String := "https://wdm-a.wbx2.com/wdm/api/v1"

/-- The fallback performed by `Webex::new_with_device_name`
(`src/lib.rs:428-438`): a failed discovery is replaced by the default
registration host instead of failing construction. -/
def devicesUrlFor (r : Except (Option MercuryErr) String) : String :=
  match r with
  | .ok url => url
  | .error _ => defaultRegistrationHost

/-- C7 counterexample: after a failed discovery on an empty cache the
code *does* populate the per-token cache entry (with the `Err(())`
marker `none`), and a second call returns the cached failure without
retrying discovery — the claim says the entry is not populated. -/
theorem c7_cache_populated_on_failure :
    get_mercury_url [] 7 (.error .noOrgs) = ([(7, none)], .error (some .noOrgs), true)
    ∧ ([((7 : Nat), (none : Option String))].lookup 7 = some none)
    ∧ get_mercury_url [(7, none)] 7 (.error .noOrgs)
        = ([(7, none)], .error none, false) := by
  refine ⟨rfl, rfl, rfl⟩

/-- C7 amended: on a cache miss with failed discovery the cache entry
is populated with a failure marker (later calls return the failure
without re-running discovery), and the caller falls back to the
hard-coded default registration host instead of failing client
construction; on success the discovered host is cached under the token
hash and reused without a second discovery call. -/
theorem c7_mercury_amended (cache : List (Nat × Option String)) (id : Nat)
    (uncached : Except MercuryErr String) :
    (∀ e, uncached = .error e → cache.lookup id = none →
        get_mercury_url cache id uncached = ((id, none) :: cache, .error (some e), true)
        ∧ devicesUrlFor (.error (some e)) = defaultRegistrationHost)
    ∧ (cache.lookup id = some none →
        get_mercury_url cache id uncached = (cache, .error none, false)
        ∧ devicesUrlFor (.error none) = defaultRegistrationHost)
    ∧ (∀ url, cache.lookup id = some (some url) →
        get_mercury_url cache id uncached = (cache, .ok url, false)
        ∧ devicesUrlFor (.ok url) = url)
    ∧ (∀ url, uncached = .ok url → cache.lookup id = none →
        get_mercury_url cache id uncached = ((id, some url) :: cache, .ok url, true)
        ∧ ((id, some url) :: cache).lookup id = some (some url)) := by
  refine ⟨?_, ?_, ?_, ?_⟩
  · intro e he hm
    subst he
    rw [get_mercury_url.eq_def, hm]
    exact ⟨rfl, rfl⟩
  · intro hm
    rw [get_mercury_url.eq_def, hm]
    exact ⟨rfl, rfl⟩
  · intro url hm
    rw [get_mercury_url.eq_def, hm]
    exact ⟨rfl, rfl⟩
  · intro url hu hm
    subst hu
    rw [get_mercury_url.eq_def, hm]
    exact ⟨rfl, by simp [List.lookup]⟩

/-- C7 witness: concrete cache-hit reuse and concrete fallback. -/
theorem c7_mercury_amended_witness :
    get_mercury_url [(3, some "https://wdm-x")] 3 (.error .restFailure)
        = ([(3, some "https://wdm-x")], .ok "https://wdm-x", false)
    ∧ devicesUrlFor (.error (some .restFailure)) = defaultRegistrationHost :=
  ⟨((c7_mercury_amended [(3, some "https://wdm-x")] 3 (.error .restFailure)).2.2.1
      "https://wdm-x" rfl).1,
    ((c7_mercury_amended [] 3 (.error .restFailure)).1 .restFailure rfl rfl).2⟩

/-! ## REST response classification (`RestClient::rest_api`)

The src snapshot mixes revisions: `lib.rs`'s `rest_api` body carries no
status handling, while the same file's doc comments and `get_devices`
match on `Error::Limited`/`Error::Status`/`Error::StatusText`, and
`error.rs` exposes the constructors (`limited(status, timeout)`,
`status_code(status)`) the classification feeds.  The classification
step itself is therefore modelled from the spec. -/

/-- An HTTP response as the classification step sees it: status code,
raw `Retry-After` header value when present, body text. -/
structure HttpResponse where
  status : Nat
  retry_after : Option String
  body : String
deriving DecidableEq

/-- Decimal digit value. -/
def digitVal (c : Char) : Option Nat :=
  if 48 ≤ c.toNat ∧ c.toNat ≤ 57 then some (c.toNat - 48) else none

def parseDigitsAux : List Char → Nat → Option Nat
  | [], acc => some acc
  | c :: rest, acc =>
    match digitVal c with
    | some d => parseDigitsAux rest (acc * 10 + d)
    | none => none

/-- A non-empty all-digit sequence, as a number. -/
def parseDigits : List Char → Option Nat
  | [] => none
  | l => parseDigitsAux l 0

/-- A signed decimal integer (`str::parse::<i64>`: optional sign, then
decimal digits; the i64 range bound is not modelled). -/
def parseIntChars : List Char → Option Int
  | '-' :: rest => (parseDigits rest).map fun n => -(n : Int)
  | '+' :: rest => (parseDigits rest).map fun n => (n : Int)
  | l => (parseDigits l).map fun n => (n : Int)

/-- Modelled from the spec: the `Retry-After` parse of the rate-limit
branch — "parsed from a `Retry-After` header if present and numeric,
else absent". -/
def parse_retry_after (h : Option String) : Option Int :=
  h.bind fun s => parseIntChars s.toList

/-- Modelled from the spec: the response-classification step of
`RestClient::rest_api` (missing from the src snapshot; only its error
constructors and callers appear).  In priority order: HTTP 423/429 →
`Limited(status, retry_after?)`; any other non-2xx →
`StatusText(status, body)`; a 2xx empty body is replaced by the JSON
`null` sentinel before decoding; decode failures surface as a JSON
error.  `decodeBody` abstracts `serde_json::from_str::<T>`. -/
def classify_response {T : Type} (decodeBody : String → Option T)
    (r : HttpResponse) : Except WError T :=
  if r.status = 423 ∨ r.status = 429 then
    .error (.limited r.status (parse_retry_after r.retry_after))
  else if ¬ (200 ≤ r.status ∧ r.status ≤ 299) then
    .error (.statusText r.status r.body)
  else
    match decodeBody (if r.body = "" then "null" else r.body) with
    | some t => .ok t
    | none => .error .jsonFailure

/-- C1: the classification in priority order.  A 423/429 response is
`Limited` with `retry_after` the numeric parse of the header (absent or
non-numeric header gives `none`); any other non-2xx response is
`StatusText` with status and body text; a 2xx response with empty body
decodes the `null` sentinel (the valid empty/unit result); otherwise
the body is decoded, with failures surfacing as a decode error. -/
theorem c1_rest_classification {T : Type} (decodeBody : String → Option T)
    (r : HttpResponse) :
    (r.status = 423 ∨ r.status = 429 →
        classify_response decodeBody r
            = .error (.limited r.status (parse_retry_after r.retry_after))
        ∧ (r.retry_after = none → parse_retry_after r.retry_after = none)
        ∧ (∀ s n, r.retry_after = some s → parseIntChars s.toList = some n →
            parse_retry_after r.retry_after = some n)
        ∧ (∀ s, r.retry_after = some s → parseIntChars s.toList = none →
            parse_retry_after r.retry_after = none))
    ∧ (¬ (r.status = 423 ∨ r.status = 429) → ¬ (200 ≤ r.status ∧ r.status ≤ 299) →
        classify_response decodeBody r = .error (.statusText r.status r.body))
    ∧ (200 ≤ r.status → r.status ≤ 299 → r.body = "" → ∀ t,
        decodeBody "null" = some t → classify_response decodeBody r = .ok t)
    ∧ (200 ≤ r.status → r.status ≤ 299 → r.body ≠ "" →
        (∀ t, decodeBody r.body = some t → classify_response decodeBody r = .ok t)
        ∧ (decodeBody r.body = none →
            classify_response decodeBody r = .error .jsonFailure)) := by
  refine ⟨?_, ?_, ?_, ?_⟩
  · intro hs
    refine ⟨by simp [classify_response, hs], ?_, ?_, ?_⟩
    · intro h; simp [parse_retry_after, h]
    · intro s n hsome hn; simp only [parse_retry_after, hsome, Option.bind_some]; exact hn
    · intro s hsome hn; simp only [parse_retry_after, hsome, Option.bind_some]; exact hn
  · intro hs h2
    simp [classify_response, hs, h2]
  · intro hlo hhi hb t ht
    have hs : ¬ (r.status = 423 ∨ r.status = 429) := by omega
    simp [classify_response, hs, hlo, hhi, hb, ht]
  · intro hlo hhi hb
    have hs : ¬ (r.status = 423 ∨ r.status = 429) := by omega
    constructor
    · intro t ht
      simp [classify_response, hs, hlo, hhi, hb, ht]
    · intro ht
      simp [classify_response, hs, hlo, hhi, hb, ht]

/-- C1 witness: the spec's example — status 429 with `Retry-After: 5`
classifies as `Limited(429, Some(5))`; the same status with a
non-numeric header gives `Limited(429, None)`. -/
theorem c1_rest_classification_witness :
    classify_response (fun _ => some ()) ⟨429, some "5", ""⟩
        = .error (.limited 429 (some 5))
    ∧ classify_response (fun _ => some ()) ⟨429, some "soon", ""⟩
        = .error (.limited 429 none) := by
  have h1 := (c1_rest_classification (fun _ => some ()) ⟨429, some "5", ""⟩).1
    (Or.inr rfl)
  have h2 := (c1_rest_classification (fun _ => some ()) ⟨429, some "soon", ""⟩).1
    (Or.inr rfl)
  refine ⟨h1.1.trans ?_, h2.1.trans ?_⟩
  · rw [h1.2.2.1 "5" 5 rfl (by decide)]
  · rw [h2.2.2.2 "soon" rfl (by decide)]

/-! ## The event stream (`WebexEventStream`, `src/lib.rs:110-228`) -/

/-- tungstenite transport errors, classified as `next()` does:
`TErr::Protocol` and `TErr::Io` are fatal, everything else is not
(`src/lib.rs:142-151`). -/
inductive TWsError
  | protocolErr
  | ioFailure
  | otherErr
deriving DecidableEq

/-- The outcome of the UTF-8 + serde decode of a Binary frame payload
(`handle_message`, `src/lib.rs:160-168`); `serde` itself is external,
so a frame carries its decode outcome. -/
inductive BinContent (Ev : Type)
  /-- payload is not valid UTF-8 -/
  | utf8Bad
  /-- payload is UTF-8 but not a JSON `Event` -/
  | jsonBad
  /-- payload decodes to an event -/
  | decoded (e : Ev)

/-- Models `tungstenite::Message`, in source order (`src/lib.rs:158-191`). -/
inductive WsMessage (Ev : Type)
  | binary (content : BinContent Ev)
  | textMsg (s : String)
  | ping
  | close
  | pong
  | frameMsg

/-- The errors a call to `next()` can return. -/
inductive NextError
  /-- Variant `Error::UTF8` from a Binary frame -/
  | decodeUtf8
  /-- Variant `Error::Json` from a Binary frame -/
  | decodeJson
  /-- Variant `Error::Closed("Web Socket Closed")` from a Close frame -/
  | socketClosed
  /-- Message "no activity for at least {timeout}" -/
  | idleTimeout
  /-- the stringly error from a fatal `TErr::Protocol`/`TErr::Io` -/
  | fatalWs (e : TWsError)
  /-- Variant `Error::Tungstenite(e, "Error getting next_result")` -/
  | recoverableWs (e : TWsError)
deriving DecidableEq

/-- Models `WebexEventStream::handle_message` (`src/lib.rs:158-192`): takes the
current `is_open` flag, returns the updated flag and either an optional
event (ignored frames give `none`) or an error.  Only a Close frame
flips the flag. -/
def handle_message {Ev : Type} (isOpen : Bool) :
    WsMessage Ev → Bool × Except NextError (Option Ev)
  | .binary (.utf8Bad) => (isOpen, .error .decodeUtf8)
  | .binary (.jsonBad) => (isOpen, .error .decodeJson)
  | .binary (.decoded e) => (isOpen, .ok (some e))
  | .textMsg _ => (isOpen, .ok none)
  | .ping => (isOpen, .ok none)
  | .close => (false, .error .socketClosed)
  | .pong => (isOpen, .ok none)
  | .frameMsg => (isOpen, .ok none)

/-- One poll result of `self.ws_stream.next()` inside the loop. -/
inductive StreamItem (Ev : Type)
  /-- the stream returned `None` (the loop just continues) -/
  | streamEnd
  /-- Variant `Some(Ok(msg))` -/
  | msg (m : WsMessage Ev)
  /-- Variant `Some(Err(e))` -/
  | wsErr (e : TWsError)

/-- Models `WebexEventStream::next` (`src/lib.rs:119-156`) with an explicit
clock.  `now` is the instant the current wait starts; each pending item
carries its arrival instant; `tokio::time::timeout` fires when no item
arrives within `timeoutD` of the wait start (an item arriving exactly at
the deadline counts as received).  Returns the final `is_open` flag, the
instant the call returns, and the result. -/
def nextT {Ev : Type} (timeoutD : Nat) (now : Nat) (isOpen : Bool) :
    List (Nat × StreamItem Ev) → Bool × Nat × Except NextError Ev
  | [] => (false, now + timeoutD, .error .idleTimeout)
  | ti :: rest =>
    if now + timeoutD < ti.1 then (false, now + timeoutD, .error .idleTimeout)
    else
      match ti.2 with
      | .streamEnd => nextT timeoutD ti.1 isOpen rest
      | .msg m =>
        match handle_message isOpen m with
        | (o, .ok (some e)) => (o, ti.1, .ok e)
        | (o, .ok none) => nextT timeoutD ti.1 o rest
        | (o, .error err) => (o, ti.1, .error err)
      | .wsErr .protocolErr => (false, ti.1, .error (.fatalWs .protocolErr))
      | .wsErr .ioFailure => (false, ti.1, .error (.fatalWs .ioFailure))
      | .wsErr .otherErr => (isOpen, ti.1, .error (.recoverableWs .otherErr))

/-- The fixed idle timeout (`Duration::from_secs(20)`,
`src/lib.rs:465`). -/
def idleTimeoutSecs : Nat := 20

/-- C3: after a call to `next()` on an open session, the session reads
closed iff the call returned the idle-timeout error, the
connection-closed error (raised only by a Close frame), or a
protocol-level or I/O-level transport error; per-frame decode errors
and other transport errors return with the session still open. -/
theorem c3_session_closed_iff_fatal {Ev : Type} (now : Nat)
    (items : List (Nat × StreamItem Ev)) :
    (nextT idleTimeoutSecs now true items).1 = false ↔
      ((nextT idleTimeoutSecs now true items).2.2 = .error .idleTimeout
       ∨ (nextT idleTimeoutSecs now true items).2.2 = .error .socketClosed
       ∨ (nextT idleTimeoutSecs now true items).2.2 = .error (.fatalWs .protocolErr)
       ∨ (nextT idleTimeoutSecs now true items).2.2 = .error (.fatalWs .ioFailure)) := by
  induction items generalizing now with
  | nil => simp [nextT]
  | cons hd rest ih =>
    obtain ⟨t, item⟩ := hd
    rw [nextT]
    by_cases htime : now + idleTimeoutSecs < t
    · simp [htime]
    · rw [if_neg htime]
      cases item with
      | streamEnd => exact ih t
      | msg m =>
        cases m with
        | binary content =>
          cases content with
          | utf8Bad => simp [handle_message]
          | jsonBad => simp [handle_message]
          | decoded e => simp [handle_message]
        | textMsg s => exact ih t
        | ping => exact ih t
        | close => simp [handle_message]
        | pong => exact ih t
        | frameMsg => exact ih t
      | wsErr e =>
        cases e with
        | protocolErr => simp
        | ioFailure => simp
        | otherErr => simp

/-- Frames the loop ignores: they produce no event and the loop
continues (Text, Ping, Pong, reassembly frames, and a `None` poll). -/
def isIgnored {Ev : Type} : StreamItem Ev → Bool
  | .streamEnd => true
  | .msg (.textMsg _) => true
  | .msg .ping => true
  | .msg .pong => true
  | .msg .frameMsg => true
  | _ => false

/-- Each pending item is an ignored frame arriving within `timeoutD` of
the previous wait start (so every individual wait succeeds). -/
def withinChain {Ev : Type} (timeoutD now : Nat) : List (Nat × StreamItem Ev) → Prop
  | [] => True
  | ti :: rest => ti.1 ≤ now + timeoutD ∧ isIgnored ti.2 = true ∧ withinChain timeoutD ti.1 rest

/-- Arrival instant of the last pending item (`now` when none). -/
def lastArrival {Ev : Type} (now : Nat) : List (Nat × StreamItem Ev) → Nat
  | [] => now
  | ti :: rest => lastArrival ti.1 rest

/-- C9: within one call to `next()`, each wait uses the fixed 20-second
idle deadline measured from the previous successful wait.  First
conjunct: over any chain of ignored frames each arriving within 20
seconds of the previous one, `next()` never returns to the caller on
those frames and finally times out exactly 20 seconds after the *last*
frame (the deadline is freshly reset by every frame, including
Text/Ping/Pong/reassembly frames; only then is the session marked
closed with the idle-timeout error).  Second conjunct: a wait in which
a full deadline elapses before the next frame returns the idle-timeout
error at `now + 20` with the session closed. -/
theorem c9_idle_deadline_reset {Ev : Type} (now : Nat)
    (items : List (Nat × StreamItem Ev)) :
    (withinChain idleTimeoutSecs now items →
        nextT idleTimeoutSecs now true items
          = (false, lastArrival now items + idleTimeoutSecs, .error .idleTimeout))
    ∧ (∀ (t : Nat) (item : StreamItem Ev) (rest : List (Nat × StreamItem Ev)),
        now + idleTimeoutSecs < t →
        nextT idleTimeoutSecs now true ((t, item) :: rest)
          = (false, now + idleTimeoutSecs, .error .idleTimeout)) := by
  constructor
  · induction items generalizing now with
    | nil => intro _; simp [nextT, lastArrival]
    | cons ti rest ih =>
      rintro ⟨harr, hign, hchain⟩
      rw [nextT]
      rw [if_neg (by omega)]
      obtain ⟨t, item⟩ := ti
      cases item with
      | streamEnd => exact ih t hchain
      | msg m =>
        cases m with
        | binary content => simp [isIgnored] at hign
        | textMsg s => exact ih t hchain
        | ping => exact ih t hchain
        | close => simp [isIgnored] at hign
        | pong => exact ih t hchain
        | frameMsg => exact ih t hchain
      | wsErr e => simp [isIgnored] at hign
  · intro t item rest ht
    rw [nextT]
    rw [if_pos ht]

/-- C9 witness: two Ping frames at instants 15 and 30 (each within 20
seconds of the previous wait, total elapsed 50 > 20): the call returns
no event for them and times out at 30 + 20 = 50 — measured from the
last frame, not from the start of the call. -/
theorem c9_idle_deadline_reset_witness :
    nextT idleTimeoutSecs 0 true
        ([(15, .msg .ping), (30, .msg .ping)] : List (Nat × StreamItem Unit))
      = (false, 50, .error .idleTimeout) :=
  (c9_idle_deadline_reset 0 [(15, .msg .ping), (30, .msg .ping)]).1
    ⟨by decide, rfl, by decide, rfl, trivial⟩

/-! ## The authentication handshake (`WebexEventStream::auth`,
`src/lib.rs:194-227`, and `Authorization::new`, `src/types.rs:429-442`) -/

/-- Models `AuthToken` (`src/types.rs:444`). -/
structure AuthToken where
  token : String
deriving DecidableEq

/-- Models `Authorization` (`src/types.rs:420-427`): serialized as the JSON
text frame `{ id, type, data: { token } }` (the `auth_type` field is
renamed `type` by serde). -/
structure Authorization where
  id : String
  auth_type : String
  data : AuthToken
deriving DecidableEq

/-- Models `Authorization::new` (`src/types.rs:433-441`); the random
`Uuid::new_v4` is the `uuid` parameter. -/
def Authorization.new (uuid token : String) : Authorization :=
  ⟨uuid, "authorization", ⟨"Bearer " ++ token⟩⟩

/-- The handshake failures of `WebexEventStream::auth`. -/
inductive AuthError
  /-- Variant `Error::Tungstenite(e, "failed to send authentication")` -/
  | sendFailed (e : TWsError)
  /-- Message "Received {msg:?} in reply to auth message" -/
  | unexpectedFrame
  /-- Message "Received error from websocket: {e}" -/
  | replyErr (e : TWsError)
  /-- Message "Websocket closed" -/
  | replyClosed
deriving DecidableEq

/-- Models `WebexEventStream::auth` (`src/lib.rs:194-227`): serialize
`Authorization::new(token)` and send it as one text frame; on send
success read exactly one frame (`reply` is that single poll): Ping or
Pong means success, any other frame an unexpected-frame failure, a
stream error a websocket-error failure, a closed stream a closed
failure; a send failure is the `Tungstenite` transport failure.
Returns the payloads of the text frames handed to `send` and the
result. -/
def auth {Ev : Type} (uuid token : String) (sendResult : Except TWsError Unit)
    (reply : Option (Except TWsError (WsMessage Ev))) :
    List Authorization × Except AuthError Unit :=
  match sendResult with
  | .ok _ =>
    ( [Authorization.new uuid token],
      match reply with
      | some (.ok m) =>
        match m with
        | .ping => .ok ()
        | .pong => .ok ()
        | _ => .error .unexpectedFrame
      | some (.error e) => .error (.replyErr e)
      | none => .error .replyClosed )
  | .error e => ([Authorization.new uuid token], .error (.sendFailed e))

/-- C8: the handshake sends exactly one text frame whose payload is the
auth structure `{ id: uuid, type: "authorization", data: { token:
"Bearer <token>" } }`, then reads exactly one frame; it succeeds iff
the send succeeded and that frame is a Ping or a Pong; a send failure
is classified as the transport failure (and the reply is then never
read). -/
theorem c8_auth_handshake {Ev : Type} (uuid token : String)
    (sendResult : Except TWsError Unit)
    (reply : Option (Except TWsError (WsMessage Ev))) :
    (auth uuid token sendResult reply).1 = [Authorization.new uuid token]
    ∧ (Authorization.new uuid token).id = uuid
    ∧ (Authorization.new uuid token).auth_type = "authorization"
    ∧ (Authorization.new uuid token).data.token = "Bearer " ++ token
    ∧ ((auth uuid token sendResult reply).2 = .ok () ↔
        (sendResult = .ok ()
          ∧ (reply = some (.ok .ping) ∨ reply = some (.ok .pong))))
    ∧ (∀ e, sendResult = .error e →
        (auth uuid token sendResult reply).2 = .error (.sendFailed e)
        ∧ ∀ reply₂ : Option (Except TWsError (WsMessage Ev)),
            (auth uuid token sendResult reply).2
              = (auth uuid token sendResult reply₂).2) := by
  refine ⟨?_, rfl, rfl, rfl, ?_, ?_⟩
  · cases sendResult <;> rfl
  · cases sendResult with
    | error e =>
      simp [auth]
    | ok u =>
      cases u
      cases reply with
      | none => simp [auth]
      | some x =>
        cases x with
        | error e => simp [auth]
        | ok m => cases m <;> simp [auth]
  · intro e he
    subst he
    exact ⟨rfl, fun reply₂ => rfl⟩

/-- C8 witness: a Pong reply authenticates; a failed send is the
transport failure. -/
theorem c8_auth_handshake_witness :
    (@auth Unit "id-1" "tok" (.ok ()) (some (.ok .pong))).2 = .ok ()
    ∧ (@auth Unit "id-1" "tok" (.error .ioFailure) none).2
        = .error (.sendFailed .ioFailure) :=
  ⟨(c8_auth_handshake "id-1" "tok" (.ok ()) (some (.ok .pong))).2.2.2.2.1.mpr
      ⟨rfl, Or.inr rfl⟩,
    ((@c8_auth_handshake Unit "id-1" "tok" (.error .ioFailure) none).2.2.2.2.2
      .ioFailure rfl).1⟩

end WebexRust
